import Mathlib

/-!
Shallow embedding of the row-shaping / table-assembly core of the
LogbookTestApp events dashboard (src/app.py), together with a
spec-modelled geozone matcher (the trips dashboard containing it is not
part of the sources).  Python floats are idealised as rationals, raw
JSON scalars as the inductive `Val`, and code that can raise a Python
exception is embedded in `Except String`.
-/

set_option maxRecDepth 10000

/-- Raw JSON scalar as seen by the shaping code: Python `None`, `str`,
`int` or `float` (floats idealised as rationals; non-finite floats are
outside the model). -/
inductive Val where
  | null
  | str (s : String)
  | int (n : ℤ)
  | float (q : ℚ)
deriving DecidableEq, Repr

/-- Decimal digit value of a character, `none` for non-digits. -/
def digitVal (c : Char) : Option ℕ :=
  if c.isDigit then some (c.toNat - 48) else none

/-- Consume leading decimal digits, returning the accumulated value,
the number of digits consumed and the rest of the input. -/
def readDigitsAux (acc cnt : ℕ) : List Char → ℕ × ℕ × List Char
  | [] => (acc, cnt, [])
  | c :: cs =>
    match digitVal c with
    | some d => readDigitsAux (10 * acc + d) (cnt + 1) cs
    | none => (acc, cnt, c :: cs)

/-- Read a (possibly empty) run of decimal digits from the front. -/
def readDigits (cs : List Char) : ℕ × ℕ × List Char :=
  readDigitsAux 0 0 cs

/-- Whitespace characters stripped by Python's `str.strip()`. -/
def isPySpace (c : Char) : Bool :=
  c = ' ' || c = '\t' || c = '\n' || c = '\x0d' || c = '\x0b' || c = '\x0c'

/-- Python `str.strip()` on a character list. -/
def pyStrip (cs : List Char) : List Char :=
  ((cs.dropWhile isPySpace).reverse.dropWhile isPySpace).reverse

/-- Python `float(s)` on a string: optional sign, decimal digits with an
optional fractional part and an optional exponent, surrounded by
optional whitespace.  `none` models a raised `ValueError`.  (Underscored
literals and `inf`/`nan` are outside the model.) -/
def pyFloatOfString (s : String) : Option ℚ :=
  let cs := pyStrip s.data
  let (sgn, cs) :=
    match cs with
    | '+' :: r => ((1 : ℚ), r)
    | '-' :: r => ((-1 : ℚ), r)
    | r => ((1 : ℚ), r)
  let (iv, ic, cs) := readDigits cs
  let (fv, fc, cs) :=
    match cs with
    | '.' :: r => readDigits r
    | r => (0, 0, r)
  if ic + fc = 0 then none
  else
    let mant : ℚ := sgn * ((iv : ℚ) + (fv : ℚ) / 10 ^ fc)
    match cs with
    | [] => some mant
    | e :: r =>
      if e = 'e' || e = 'E' then
        let (esgn, r) :=
          match r with
          | '+' :: r2 => ((1 : ℤ), r2)
          | '-' :: r2 => ((-1 : ℤ), r2)
          | r2 => ((1 : ℤ), r2)
        let (ev, ec, r) := readDigits r
        if ec = 0 || !r.isEmpty then none
        else some (mant * 10 ^ (esgn * (ev : ℤ)))
      else none

/-- Python `int(s)` on a string: optional sign and decimal digits with
optional surrounding whitespace; `none` models a raised `ValueError`. -/
def pyIntOfString (s : String) : Option ℤ :=
  let cs := pyStrip s.data
  let (sgn, cs) :=
    match cs with
    | '+' :: r => ((1 : ℤ), r)
    | '-' :: r => ((-1 : ℤ), r)
    | r => ((1 : ℤ), r)
  let (iv, ic, cs) := readDigits cs
  if ic = 0 || !cs.isEmpty then none else some (sgn * (iv : ℤ))

/-- Python `float(v)` numeric coercion on a scalar; `none` models a
raised `TypeError`/`ValueError`. -/
def pyFloat : Val → Option ℚ
  | .null => none
  | .str s => pyFloatOfString s
  | .int n => some (n : ℚ)
  | .float q => some q

/-- Floor of a rational as an integer, written out computably
(`fdiv` of the reduced numerator by the positive denominator). -/
def ratFloor (q : ℚ) : ℤ :=
  Int.fdiv q.num q.den

/-- Python `int(v)` on a scalar (floats truncate toward zero); `none`
models a raised `TypeError`/`ValueError`. -/
def pyInt : Val → Option ℤ
  | .null => none
  | .str s => pyIntOfString s
  | .int n => some n
  | .float q => some (if 0 ≤ q then ratFloor q else -ratFloor (-q))

/-- Round-half-to-even at `k` decimal places, the idealisation of
Python's `round(x, k)` on floats. -/
def pyRound (q : ℚ) (k : ℕ) : ℚ :=
  let m : ℚ := q * 10 ^ k
  let fl : ℤ := ratFloor m
  let diff : ℚ := m - fl
  let n : ℤ :=
    if diff < 1 / 2 then fl
    else if 1 / 2 < diff then fl + 1
    else if fl % 2 = 0 then fl else fl + 1
  (n : ℚ) / 10 ^ k

/-- Embeds `safe_km` (src/app.py:104): convert metres (possibly null or
a string) to kilometres with 3 decimals, falling back to `0.0` when the
`float` coercion raises. -/
def safe_km (v : Val) : ℚ :=
  match pyFloat v with
  | some f => pyRound (f / 1000) 3
  | none => 0

/-- Smallest number of decimal places (searched up to 30) rendering the
rational exactly. -/
def decPlaces (q : ℚ) : Option ℕ :=
  (List.range 30).find? fun k => (q * 10 ^ k).den = 1

/-- Idealised Python `str()` of a float: shortest exact decimal form
with at least one fractional digit (`str(5.0) = "5.0"`).  Rationals
with no finite decimal form (unreachable from parsed JSON floats) fall
back to `toString`. -/
def floatStr (q : ℚ) : String :=
  match decPlaces q with
  | some k =>
    let k := max k 1
    let m : ℤ := ratFloor (q * 10 ^ k)
    let a : ℕ := m.natAbs
    let ip : ℕ := a / 10 ^ k
    let fp : ℕ := a % 10 ^ k
    let fpStr :=
      let raw := toString fp
      String.mk (List.replicate (k - raw.length) '0') ++ raw
    (if m < 0 then "-" else "") ++ toString ip ++ "." ++ fpStr
  | none => toString q

/-- Python `str(v)` on a scalar, as used by f-string interpolation. -/
def pyStr : Val → String
  | .null => "None"
  | .str s => s
  | .int n => toString n
  | .float q => floatStr q

/-- Optional string fields of `AddressParts` (§3 of the spec): the
values `join_address` reads out of the address mapping. -/
structure Addr where
  street : Option String
  house_number : Option String
  locality : Option String
  region : Option String
  county : Option String
  country : Option String
deriving DecidableEq, Repr

/-- Input to `join_address`: Python `None`, a non-mapping value, or an
address mapping. -/
inductive AddrInput where
  | null
  | notMapping
  | map (a : Addr)
deriving DecidableEq, Repr

/-- Python truthiness of an optional string (`None` and `""` are
falsy). -/
def optTruthy : Option String → Bool
  | none => false
  | some s => !s.isEmpty

/-- Python `x or y` on optional strings, as in
`addr.get("region") or addr.get("county")`. -/
def pyOrStr (x y : Option String) : Option String :=
  if optTruthy x then x else y

/-- Python `sep.join(parts)`. -/
def joinSep (sep : String) : List String → String
  | [] => ""
  | [x] => x
  | x :: xs => x ++ sep ++ joinSep sep xs

/-- Embeds `join_address` (src/app.py:89): concatenate the non-empty
address parts, in fixed order, with `", "`; anything that is not a
mapping yields `""`. -/
def join_address : AddrInput → String
  | .map a =>
    let parts : List (Option String) :=
      [a.street, a.house_number, a.locality, pyOrStr a.region a.county, a.country]
    joinSep ", " ((parts.filter optTruthy).map (·.getD ""))
  | _ => ""

/-- Restatement of §4.1 of the spec in its own words: the non-empty
parts among street, house number, locality, the region-or-county slot
and country, in that fixed order. -/
def nonEmptyParts (a : Addr) : List String :=
  (([a.street, a.house_number, a.locality, pyOrStr a.region a.county,
      a.country]).map (·.getD "")).filter (fun s => !s.isEmpty)

/-- Python `html.escape` with `quote=True`: the five sequential
`str.replace` passes amount to this per-character expansion. -/
def htmlEscapeChar (c : Char) : List Char :=
  if c = '&' then "&amp;".data
  else if c = '<' then "&lt;".data
  else if c = '>' then "&gt;".data
  else if c = '"' then "&quot;".data
  else if c = '\x27' then "&#x27;".data
  else [c]

/-- Python `html.escape(s)` (quote=True, the default). -/
def htmlEscape (s : String) : String :=
  String.mk (s.data.flatMap htmlEscapeChar)

/-- A shaped table row: ordered column-name/value pairs. -/
abbrev Row : Type := List (String × Val)

/-- Embeds `build_tooltip_html` (src/app.py:112): per key/value pair an
escaped `<b>key</b>: value` fragment (a `None` value renders as the
empty string), joined by `<br/>`. -/
def build_tooltip_html (row : Row) : String :=
  joinSep "<br/>" (row.map fun kv =>
    "<b>" ++ htmlEscape kv.1 ++ "</b>: " ++
      (match kv.2 with
       | .null => ""
       | v => htmlEscape (pyStr v)))

/-- Gregorian leap-year test. -/
def isLeap (y : ℕ) : Bool :=
  (y % 4 = 0 && y % 100 ≠ 0) || y % 400 = 0

/-- Days in a Gregorian month. -/
def daysInMonth (y mo : ℕ) : ℕ :=
  if mo = 2 then (if isLeap y then 29 else 28)
  else if mo = 4 || mo = 6 || mo = 9 || mo = 11 then 30
  else 31

/-- Days since 1970-01-01 of a civil date (Howard Hinnant's
`days_from_civil` algorithm). -/
def daysFromCivil (y m d : ℤ) : ℤ :=
  let y := if m ≤ 2 then y - 1 else y
  let era := Int.fdiv y 400
  let yoe := y - era * 400
  let mp := Int.emod (m + 9) 12
  let doy := Int.fdiv (153 * mp + 2) 5 + d - 1
  let doe := yoe * 365 + Int.fdiv yoe 4 - Int.fdiv yoe 100 + doy
  era * 146097 + doe - 719468

/-- Civil date from days since 1970-01-01 (Hinnant's
`civil_from_days`). -/
def civilFromDays (z : ℤ) : ℤ × ℤ × ℤ :=
  let z := z + 719468
  let era := Int.fdiv z 146097
  let doe := z - era * 146097
  let yoe := Int.fdiv (doe - Int.fdiv doe 1460 + Int.fdiv doe 36524 - Int.fdiv doe 146096) 365
  let y := yoe + era * 400
  let doy := doe - (365 * yoe + Int.fdiv yoe 4 - Int.fdiv yoe 100)
  let mp := Int.fdiv (5 * doy + 2) 153
  let d := doy - Int.fdiv (153 * mp + 2) 5 + 1
  let m := mp + (if mp < 10 then 3 else -9)
  (if m ≤ 2 then y + 1 else y, m, d)

/-- A parsed Python `datetime`: civil fields plus an optional UTC
offset in minutes (`none` = a naive datetime). -/
structure DT where
  year : ℕ
  month : ℕ
  day : ℕ
  hour : ℕ
  minute : ℕ
  second : ℕ
  micro : ℕ
  offMin : Option ℤ
deriving DecidableEq, Repr

/-- Expect one specific character at the front of the input. -/
def expectChar (c : Char) : List Char → Option (List Char)
  | x :: xs => if x = c then some xs else none
  | [] => none

/-- Read exactly two decimal digits. -/
def read2 : List Char → Option (ℕ × List Char)
  | a :: b :: r => do
    let x ← digitVal a
    let y ← digitVal b
    some (10 * x + y, r)
  | _ => none

/-- Read exactly four decimal digits. -/
def read4 : List Char → Option (ℕ × List Char)
  | a :: b :: c :: d :: r => do
    let w ← digitVal a
    let x ← digitVal b
    let y ← digitVal c
    let z ← digitVal d
    some (1000 * w + 100 * x + 10 * y + z, r)
  | _ => none

/-- Parse `HH:MM[:SS[.ffffff]]` with range checks, returning hour,
minute, second, microsecond and the rest of the input. -/
def parseTime (cs : List Char) : Option (ℕ × ℕ × ℕ × ℕ × List Char) := do
  let (h, cs) ← read2 cs
  let cs ← expectChar ':' cs
  let (mi, cs) ← read2 cs
  if 23 < h || 59 < mi then none
  else
    match cs with
    | ':' :: r => do
      let (sv, r) ← read2 r
      if 59 < sv then none
      else
        match r with
        | '.' :: r2 =>
          let (fv, fc, r3) := readDigits r2
          if fc < 1 || 6 < fc then none
          else some (h, mi, sv, fv * 10 ^ (6 - fc), r3)
        | r2 => some (h, mi, sv, 0, r2)
    | r => some (h, mi, 0, 0, r)

/-- Parse an optional trailing `±HH:MM` UTC offset (minutes east). -/
def parseOffset (cs : List Char) : Option (Option ℤ) :=
  match cs with
  | [] => some none
  | c :: r =>
    if c = '+' || c = '-' then do
      let (oh, r) ← read2 r
      let r ← expectChar ':' r
      let (om, r) ← read2 r
      if !r.isEmpty || 23 < oh || 59 < om then none
      else some (some ((if c = '-' then -1 else 1) * ((oh : ℤ) * 60 + om)))
    else none

/-- Parse the `datetime.fromisoformat` subset the app's data exercises:
`YYYY-MM-DD`, optionally a `T` or space separator and
`HH:MM[:SS[.ffffff]]`, optionally `±HH:MM`, with calendar and range
validation. -/
def parseDT (s : String) : Option DT := do
  let cs := s.data
  let (y, cs) ← read4 cs
  let cs ← expectChar '-' cs
  let (mo, cs) ← read2 cs
  let cs ← expectChar '-' cs
  let (d, cs) ← read2 cs
  if y < 1 || mo < 1 || 12 < mo || d < 1 || daysInMonth y mo < d then none
  else
    match cs with
    | [] => some ⟨y, mo, d, 0, 0, 0, 0, none⟩
    | sep :: rest =>
      if sep = 'T' || sep = ' ' then do
        let (h, mi, sv, us, rest) ← parseTime rest
        let off ← parseOffset rest
        some ⟨y, mo, d, h, mi, sv, us, off⟩
      else none

/-- Python `s.replace("Z", "+00:00")`: the pattern is a single
character, so the replacement is per-character expansion. -/
def replaceZ (s : String) : String :=
  String.mk (s.data.flatMap fun c => if c = 'Z' then "+00:00".data else [c])

/-- Embeds `parse_iso` (src/app.py:73): falsy or non-string input and
any parse failure give `None`; otherwise the `Z`-normalised string is
parsed. -/
def parse_iso (v : Val) : Option DT :=
  match v with
  | .str s => if s.isEmpty then none else parseDT (replaceZ s)
  | _ => none

/-- Microseconds of a civil datetime tuple since the epoch, a strictly
monotone linearisation of Python's field-lexicographic `datetime`
comparison. -/
def linearMicros (dt : DT) : ℤ :=
  (daysFromCivil dt.year dt.month dt.day * 86400 +
    dt.hour * 3600 + dt.minute * 60 + dt.second) * 1000000 + dt.micro

/-- A sort key produced by `_sort_key`: Python keeps naive and aware
datetimes apart and refuses to compare across the two kinds. -/
inductive SortKey where
  | naive (v : ℤ)
  | aware (v : ℤ)
deriving DecidableEq, Repr

/-- Whether the key is an offset-naive datetime. -/
def SortKey.isNaive : SortKey → Bool
  | .naive _ => true
  | .aware _ => false

/-- Numeric value of the key (aware keys are already in UTC). -/
def SortKey.val : SortKey → ℤ
  | .naive v => v
  | .aware v => v

/-- The fallback `datetime.min.replace(tzinfo=timezone.utc)` of
`_sort_key`: year 1, offset-aware. -/
def datetimeMinKey : SortKey :=
  .aware (linearMicros ⟨1, 1, 1, 0, 0, 0, 0, none⟩)

/-- Embeds `_sort_key` (src/app.py:227): parsed offset-carrying strings
give aware keys (UTC instant), offset-less strings naive keys, anything
unparsable the aware `datetime.min`. -/
def sortKeyOf (v : Val) : SortKey :=
  match parse_iso v with
  | some dt =>
    match dt.offMin with
    | none => .naive (linearMicros dt)
    | some off => .aware (linearMicros dt - off * 60000000)
  | none => datetimeMinKey

/-- Display timezone offset in minutes: Europe/Bucharest modelled as a
fixed UTC+2 zone (DST transitions are outside the model; no settled
claim depends on the offset value). -/
def displayTzOffsetMin : ℤ := 120

/-- Shift a civil datetime by whole minutes, tagging the result with
the display offset.  The `toNat` clamps only below year 1, where Python
would raise `OverflowError` (unreachable for API data). -/
def shiftMinutes (dt : DT) (delta : ℤ) : DT :=
  let total := daysFromCivil dt.year dt.month dt.day * 1440 + dt.hour * 60 + dt.minute + delta
  let days := Int.fdiv total 1440
  let rem := (Int.emod total 1440).toNat
  let c := civilFromDays days
  ⟨c.1.toNat, c.2.1.toNat, c.2.2.toNat, rem / 60, rem % 60, dt.second, dt.micro,
    some displayTzOffsetMin⟩

/-- Python `dt.astimezone(display_tz)`: aware datetimes are moved to
the display offset; naive datetimes are interpreted in the system
timezone, modelled as equal to the display timezone (so the fields are
unchanged). -/
def astimezoneDisplay (dt : DT) : DT :=
  match dt.offMin with
  | none => dt
  | some off => shiftMinutes dt (displayTzOffsetMin - off)

/-- Zero-pad a natural number to width `w`. -/
def padNum (w n : ℕ) : String :=
  let raw := toString n
  String.mk (List.replicate (w - raw.length) '0') ++ raw

/-- Python `dt.strftime("%Y-%m-%d %H:%M:%S")`. -/
def strftimeLocal (dt : DT) : String :=
  padNum 4 dt.year ++ "-" ++ padNum 2 dt.month ++ "-" ++ padNum 2 dt.day ++ " " ++
    padNum 2 dt.hour ++ ":" ++ padNum 2 dt.minute ++ ":" ++ padNum 2 dt.second

/-- Embeds `fmt_dt_local` (src/app.py:82): parse, convert to the
display timezone and format; unparsable input yields `None`. -/
def fmt_dt_local (v : Val) : Val :=
  match parse_iso v with
  | some dt => .str (strftimeLocal (astimezoneDisplay dt))
  | none => .null

/-- Python `str(timedelta(seconds=n))`: `H:MM:SS` with an unpadded hour
and a `D day(s), ` prefix when the floor-division day count is
non-zero. -/
def timedeltaStr (n : ℤ) : String :=
  let days := Int.fdiv n 86400
  let rem := (Int.emod n 86400).toNat
  let core := toString (rem / 3600) ++ ":" ++ padNum 2 (rem % 3600 / 60) ++ ":" ++
    padNum 2 (rem % 60)
  if days = 0 then core
  else toString days ++ " day" ++ (if days.natAbs = 1 then "" else "s") ++ ", " ++ core

/-- The `location` sub-object of an event: coordinates plus the raw
address slot. -/
structure Location where
  latitude : Val
  longitude : Val
  address : AddrInput
deriving DecidableEq, Repr

/-- A raw event record as consumed by `build_rows`.  A missing key and
an explicit JSON `null` are conflated (the code reads every field with
`dict.get`, whose default is `None`); `event_type` is kept as an
optional string (the `(... or "").upper()` path), `location` as an
optional sub-object, `driver_ids` as a list (`None` and `[]` behave
identically under `(... or [None])[0]`). -/
structure Event where
  event_type : Option String
  event_start : Val
  event_end : Val
  duration_sec : Val
  location : Option Location
  mileage : Val
  fuel_level : Val
  fuel_level_start : Val
  fuel_level_end : Val
  fuel_difference : Val
  driver_ids : List Val
  id : Val
deriving DecidableEq, Repr

/-- The address slot reached by `loc.get("address", {}) or {}`: a
missing location behaves as the empty mapping (all fields absent). -/
def locAddress (e : Event) : AddrInput :=
  match e.location with
  | none => .map ⟨none, none, none, none, none, none⟩
  | some l => l.address

/-- Coordinate cell `loc.get("latitude")` / `loc.get("longitude")`. -/
def locCoord (e : Event) (lat : Bool) : Val :=
  match e.location with
  | none => .null
  | some l => if lat then l.latitude else l.longitude

/-- Uppercased event type `(e.get("event_type") or "").upper()`
(Python `str.upper` on the ASCII event names). -/
def evTypeUpper (e : Event) : String :=
  (e.event_type.getD "").toUpper

/-- The eleven display columns of the events table, in row order. -/
def displayCols : List String :=
  ["Tip eveniment", "Start", "Sfârșit", "Durată", "Lat", "Lon", "Adresă",
    "Kilometraj (pas) [km]", "Nivel combustibil", "ID șofer", "ID brut"]

/-- Address cell of a shaped row (src/app.py:197-205): the pipe-joined
raw fuel readings for `REFUEL`/`DRAIN` event types (case-insensitive),
the joined location address otherwise. -/
def rowAddr (e : Event) : String :=
  if evTypeUpper e = "REFUEL" || evTypeUpper e = "DRAIN" then
    pyStr e.fuel_level_start ++ " | " ++ pyStr e.fuel_level_end ++ " | " ++
      pyStr e.fuel_difference
  else join_address (locAddress e)

/-- Duration cell (src/app.py:211): `None` stays `None`; otherwise
`int()` coercion (which raises `ValueError` on a present but
non-integer-coercible value) feeds `str(timedelta(...))`. -/
def durCell (e : Event) : Except String Val :=
  match e.duration_sec with
  | .null => .ok Val.null
  | v =>
    match pyInt v with
    | some n => .ok (Val.str (timedeltaStr n))
    | none => .error "ValueError: invalid literal for int() with base 10"

/-- The shaped row literal, given the already-computed duration cell. -/
def rowOf (e : Event) (dur : Val) : Row :=
  [("Tip eveniment", match e.event_type with | none => Val.null | some s => Val.str s),
    ("Start", fmt_dt_local e.event_start),
    ("Sfârșit", fmt_dt_local e.event_end),
    ("Durată", dur),
    ("Lat", locCoord e true),
    ("Lon", locCoord e false),
    ("Adresă", Val.str (rowAddr e)),
    ("Kilometraj (pas) [km]", Val.float (safe_km e.mileage)),
    ("Nivel combustibil", e.fuel_level),
    ("ID șofer", match e.driver_ids with | [] => Val.null | x :: _ => x),
    ("ID brut", e.id)]

/-- Embeds the per-record body of `build_rows` (src/app.py:194-221).
The only failing step is the duration coercion. -/
def buildRow (e : Event) : Except String Row := do
  let dur ← durCell e
  pure (rowOf e dur)

/-- Embeds `build_rows` (src/app.py:191): one row appended per record;
an exception raised for one record aborts the whole loop and loses the
rows shaped so far. -/
def build_rows : List Event → Except String (List Row)
  | [] => .ok []
  | e :: es => do
    let r ← buildRow e
    let rs ← build_rows es
    pure (r :: rs)

/-- A dataframe: ordered column names plus ordered rows of
column-name/value cells. -/
structure DataFrame where
  cols : List String
  rows : List Row
deriving DecidableEq

/-- Cell of a row at a column, `Val.null` when absent (pandas would
hold `NaN` there). -/
def cellGet (r : Row) (c : String) : Option Val :=
  match r with
  | [] => none
  | kv :: rest => if kv.1 = c then some kv.2 else cellGet rest c

/-- Cell with the pandas missing-value default. -/
def cellGetD (r : Row) (c : String) : Val :=
  (cellGet r c).getD .null

/-- Column assignment on one row: replace in place when the column
exists, append at the end otherwise (pandas `df[c] = ...`). -/
def setCell (r : Row) (c : String) (v : Val) : Row :=
  match r with
  | [] => [(c, v)]
  | kv :: rest => if kv.1 = c then (c, v) :: rest else kv :: setCell rest c v

/-- Column drop on one row (pandas `df.drop(columns=[c])`). -/
def dropCell (r : Row) (c : String) : Row :=
  r.filter fun kv => kv.1 != c

/-- Column-list effect of assignment. -/
def setColName (cols : List String) (c : String) : List String :=
  if cols.contains c then cols else cols ++ [c]

/-- Column-list effect of a drop. -/
def dropColName (cols : List String) (c : String) : List String :=
  cols.filter fun k => k != c

/-- Embeds `pd.to_numeric(..., errors="coerce").fillna(0)` on one cell:
numbers pass through, numeric strings parse, everything else (including
`None`) coerces to `NaN` and is filled with 0. -/
def toNumFill0 (v : Val) : ℚ :=
  match v with
  | .int n => (n : ℚ)
  | .float q => q
  | .str s => (pyFloatOfString s).getD 0
  | .null => 0

/-- Pandas `Series.cumsum()`: inclusive running sums. -/
def cumsum : List ℚ → List ℚ :=
  go 0
where
  /-- Running-sum worker carrying the accumulated prefix. -/
  go (acc : ℚ) : List ℚ → List ℚ
    | [] => []
    | x :: xs => (acc + x) :: go (acc + x) xs

/-- Pandas `Series.shift(fill_value=0)`: drop the last element and
prepend a 0. -/
def shiftFill0 (xs : List ℚ) : List ℚ :=
  match xs with
  | [] => []
  | _ => 0 :: xs.dropLast

/-- Exclusive left scan: element `i` is the accumulator plus the sum of
the elements strictly before `i` (specification form of
`cumsum` followed by `shift`). -/
def exclScan (acc : ℚ) : List ℚ → List ℚ
  | [] => []
  | x :: r => acc :: exclScan (acc + x) r

/-- The per-row distance-step column name. -/
def stepCol : String := "Kilometraj (pas) [km]"

/-- The cumulative-distance column name. -/
def cumuCol : String := "Kilometraj (cumulativ) [km]"

/-- Start-column sort key of a row. -/
def rowKey (r : Row) : SortKey :=
  sortKeyOf (cellGetD r "Start")

/-- Whether the key list mixes naive and aware datetimes — exactly the
configurations in which Python's comparison raises `TypeError` during
the sort. -/
def mixedKeys (rows : List Row) : Bool :=
  (rows.any fun r => (rowKey r).isNaive) && (rows.any fun r => !(rowKey r).isNaive)

/-- Key comparison used by the sort (both keys of the same kind
whenever the sort is reached). -/
def rowLE (a b : Row) : Bool :=
  (rowKey a).val ≤ (rowKey b).val

/-- Insert into an already-sorted list, before the first strictly
greater element (stable: an incoming earlier-input row lands before
equal-keyed later-input rows). -/
def insertSorted (r : Row) : List Row → List Row
  | [] => [r]
  | x :: xs => if rowLE r x then r :: x :: xs else x :: insertSorted r xs

/-- Stable insertion sort by the Start key, modelling the
`df.sort_values(by=["Start"], key=...)` row permutation. -/
def sortRows : List Row → List Row
  | [] => []
  | r :: rs => insertSorted r (sortRows rs)

/-- Embeds `sort_and_cumulate` (src/app.py:225).  An empty frame is
returned untouched.  Otherwise the rows are sorted by the Start key
(raising `TypeError` when parsable and unparsable Starts are mixed,
because `_sort_key` maps the latter to an offset-aware `datetime.min`
while parsed display strings are offset-naive), the step column is
coerced to numbers with 0 for `NaN`, the cumulative column is the
shifted running sum, and the step column is dropped. -/
def sort_and_cumulate (df : DataFrame) : Except String DataFrame :=
  if df.rows.isEmpty || df.cols.isEmpty then .ok df
  else if !df.cols.contains "Start" then .error "KeyError: Start"
  else if mixedKeys df.rows then
    .error "TypeError: cannot compare offset-naive and offset-aware datetimes"
  else if !df.cols.contains stepCol then .error "KeyError: Kilometraj (pas) [km]"
  else
    .ok ⟨dropColName (setColName df.cols cumuCol) stepCol,
      (List.zipWith (fun r q => setCell r cumuCol (.float q)) (sortRows df.rows)
        (shiftFill0 (cumsum ((sortRows df.rows).map fun r =>
          toNumFill0 (cellGetD r stepCol))))).map fun r => dropCell r stepCol⟩

/-- Modelled from the spec: a circular geozone eligible for matching
(§3, a POINT zone with a circle: centre coordinates in degrees and a
radius in metres).  The geozone matcher lives in the trips dashboard,
which is not among the sources. -/
structure Geozone where
  name : String
  clat : ℝ
  clon : ℝ
  radius : ℝ

/-- Modelled from the spec (§4.5): great-circle distance in metres via
the haversine formula on a spherical Earth of radius 6,371,000 m,
between two points given in degrees. -/
noncomputable def haversineM (lat1 lon1 lat2 lon2 : ℝ) : ℝ :=
  let phi1 := lat1 * Real.pi / 180
  let phi2 := lat2 * Real.pi / 180
  let dphi := (lat2 - lat1) * Real.pi / 180
  let dlam := (lon2 - lon1) * Real.pi / 180
  let a := Real.sin (dphi / 2) ^ 2 +
    Real.cos phi1 * Real.cos phi2 * Real.sin (dlam / 2) ^ 2
  2 * 6371000 * Real.arcsin (Real.sqrt a)

open Classical in
/-- Modelled from the spec (§4.5): walk the zone list in order and
collect the names of the zones whose circle contains the point
(boundary-inclusive `distance ≤ radius`). -/
noncomputable def matchZonesAux (la lo : ℝ) : List Geozone → List String
  | [] => []
  | z :: zs =>
    if haversineM la lo z.clat z.clon ≤ z.radius then
      z.name :: matchZonesAux la lo zs
    else matchZonesAux la lo zs

/-- Modelled from the spec (§4.5): a point with a missing latitude or
longitude matches no zone and short-circuits before any distance is
computed. -/
noncomputable def matchZones (lat lon : Option ℝ) (zs : List Geozone) : List String :=
  match lat, lon with
  | some la, some lo => matchZonesAux la lo zs
  | _, _ => []

/-- Witness data: the REFUEL sample event of the repo's internal tests
(src/app.py:369-381). -/
def evRefuelW : Event :=
  { event_type := some "REFUEL"
    event_start := .str "2025-09-29T07:30:24.000Z"
    event_end := .str "2025-09-29T07:30:24.000Z"
    duration_sec := .null
    location := some ⟨.float 48.6, .float 21.2, .null⟩
    mileage := .null
    fuel_level := .null
    fuel_level_start := .float 386.93
    fuel_level_end := .float 418.52
    fuel_difference := .float 31.59
    driver_ids := []
    id := .int 16 }

/-- Witness data: the STOP sample event of the repo's internal tests
(src/app.py:382-391). -/
def evStopW : Event :=
  { event_type := some "STOP"
    event_start := .str "2025-09-29T07:03:18.000Z"
    event_end := .str "2025-09-29T07:04:39.000Z"
    duration_sec := .int 81
    location := some ⟨.float 47.1, .float 21.87,
      .map ⟨none, none, some "Oradea", none, none, some "Romania"⟩⟩
    mileage := .int 3326
    fuel_level := .null
    fuel_level_start := .null
    fuel_level_end := .null
    fuel_difference := .null
    driver_ids := []
    id := .int 1462 }

/-- Failing input for the duration slip: a record whose `duration_sec`
is a present but non-integer-coercible string. -/
def evBadDurW : Event :=
  { event_type := none
    event_start := .null
    event_end := .null
    duration_sec := .str "abc"
    location := none
    mileage := .null
    fuel_level := .null
    fuel_level_start := .null
    fuel_level_end := .null
    fuel_difference := .null
    driver_ids := []
    id := .null }

/-- A record malformed in every way the error-handling claim lists
except the duration: missing coordinates, unparsable timestamp,
non-numeric mileage. -/
def evMalformedW : Event :=
  { event_type := some "STOP"
    event_start := .str "not-a-date"
    event_end := .null
    duration_sec := .null
    location := none
    mileage := .str "x"
    fuel_level := .null
    fuel_level_start := .null
    fuel_level_end := .null
    fuel_difference := .null
    driver_ids := []
    id := .int 7 }

/-- Shaped row of the REFUEL witness event. -/
def rowRefuelW : Row := (buildRow evRefuelW).toOption.getD []

/-- Witness event list for the shaping claims. -/
def esW : List Event := [evRefuelW, evStopW]

/-- Shaped rows of the witness event list. -/
def rsW : List Row := (build_rows esW).toOption.getD []

/-- Witness table for the sort-and-cumulate claims: three rows out of
Start order, one with a non-numeric step value. -/
def dfW : DataFrame :=
  ⟨["Start", stepCol],
    [[("Start", Val.str "2025-01-03 00:00:00"), (stepCol, Val.str "x")],
      [("Start", Val.str "2025-01-01 00:00:00"), (stepCol, Val.float 1)],
      [("Start", Val.str "2025-01-02 00:00:00"), (stepCol, Val.int 2)]]⟩

/-- Result table of the witness sort-and-cumulate run. -/
def dfW' : DataFrame := (sort_and_cumulate dfW).toOption.getD ⟨[], []⟩

/-- Failing input for the sort slip: one row with a parsable formatted
Start and one row whose Start is `None`. -/
def dfMixedW : DataFrame :=
  ⟨["Start", stepCol],
    [[("Start", Val.str "2025-09-29 10:03:18"), (stepCol, Val.float 1)],
      [("Start", Val.null), (stepCol, Val.float 2)]]⟩

/-- Filtering by Python truthiness before extracting the strings is the
same as extracting first and dropping the empty ones. -/
theorem filter_optTruthy_map (l : List (Option String)) :
    (l.filter optTruthy).map (·.getD "") = (l.map (·.getD "")).filter (fun s => !s.isEmpty) := by
  induction l with
  | nil => rfl
  | cons o l ih =>
    cases o with
    | none => simpa [optTruthy] using ih
    | some s => by_cases hs : s.isEmpty <;> simp [optTruthy, hs, ih]

/-- C6: for every input to `safe_km`, a null input fails the numeric
coercion, a failed coercion yields exactly 0.0 without raising, and a
successful coercion yields `round(v/1000, 3)`. -/
theorem safe_km_spec (v : Val) :
    (v = .null → pyFloat v = none) ∧
    (pyFloat v = none → safe_km v = 0) ∧
    (∀ q, pyFloat v = some q → safe_km v = pyRound (q / 1000) 3) := by
  refine ⟨?_, ?_, ?_⟩
  · rintro rfl; rfl
  · intro h; simp [safe_km, h]
  · intro q h; simp [safe_km, h]

/-- Witness for C6: a non-numeric string and null give 0.0, and a
numeric input gives the 3-decimal kilometre rounding (1234 m ↦ 1.234 km). -/
theorem safe_km_spec_witness :
    safe_km (.str "abc") = 0 ∧ safe_km .null = 0 ∧
    safe_km (.int 1234) = pyRound ((1234 : ℚ) / 1000) 3 ∧
    pyRound ((1234 : ℚ) / 1000) 3 = 1234 / 1000 := by
  refine ⟨(safe_km_spec _).2.1 (by decide), (safe_km_spec _).2.1 (by decide),
    (safe_km_spec _).2.2 1234 (by with_unfolding_all decide), by with_unfolding_all decide⟩

/-- C7: `join_address` yields the empty string on null or non-mapping
input and otherwise joins, with `", "`, exactly the non-empty parts in
the fixed order street, house number, locality, region-or-county,
country; the last three conjuncts instantiate the spec's test vector
and the region/county preference (an empty-string region defers to the
county, exactly Python's `or`). -/
theorem join_address_spec :
    join_address .null = "" ∧ join_address .notMapping = "" ∧
    (∀ a : Addr, join_address (.map a) = joinSep ", " (nonEmptyParts a)) ∧
    join_address (.map ⟨some "Str", some "10", some "Cluj", none, none, some "RO"⟩) =
      "Str, 10, Cluj, RO" ∧
    join_address (.map ⟨none, none, none, some "Reg", some "Cnt", none⟩) = "Reg" ∧
    join_address (.map ⟨none, none, none, some "", some "Cnt", none⟩) = "Cnt" := by
  refine ⟨rfl, rfl, ?_, by decide, by decide, by decide⟩
  intro a
  have h1 : join_address (.map a) =
      joinSep ", " ((([a.street, a.house_number, a.locality, pyOrStr a.region a.county,
        a.country]).filter optTruthy).map (·.getD "")) := rfl
  rw [h1, filter_optTruthy_map]
  rfl

/-- Counterexample for C8 as stated: the tooltip of a two-column row is
not the newline-joined plain `key: value` pairs. -/
theorem build_tooltip_claim_counterexample :
    build_tooltip_html [("K", Val.str "V"), ("A", Val.str "B")] ≠ "K: V\nA: B" := by
  decide

/-- C8 (amended): the tooltip concatenates, in row order, one
`<b>key</b>: value` fragment per column with key and value HTML-escaped
(a null value rendering as the empty string), joined by `<br/>`. -/
theorem build_tooltip_spec :
    (∀ row : Row, build_tooltip_html row =
      joinSep "<br/>" (row.map fun kv =>
        "<b>" ++ htmlEscape kv.1 ++ "</b>: " ++
          (match kv.2 with
           | .null => ""
           | v => htmlEscape (pyStr v)))) ∧
    build_tooltip_html [("a<b", Val.str "x&y"), ("n", Val.null)] =
      "<b>a&lt;b</b>: x&amp;y<br/><b>n</b>: " := by
  exact ⟨fun row => rfl, by decide⟩

/-- C4: in every successfully shaped row the address cell holds
`rowAddr`, which for a case-insensitive REFUEL or DRAIN event type is
the pipe-joined raw fuel triple and for every other event type the
joined location address. -/
theorem refuel_drain_address (e : Event) (r : Row) (h : buildRow e = .ok r) :
    cellGet r "Adresă" = some (.str (rowAddr e)) ∧
    ((evTypeUpper e = "REFUEL" ∨ evTypeUpper e = "DRAIN") →
      rowAddr e = pyStr e.fuel_level_start ++ " | " ++ pyStr e.fuel_level_end ++ " | " ++
        pyStr e.fuel_difference) ∧
    ((evTypeUpper e ≠ "REFUEL" ∧ evTypeUpper e ≠ "DRAIN") →
      rowAddr e = join_address (locAddress e)) := by
  refine ⟨?_, ?_, ?_⟩
  · cases hd : durCell e with
    | error s =>
      have hb : buildRow e = .error s := by unfold buildRow; rw [hd]; rfl
      rw [hb] at h
      exact Except.noConfusion h
    | ok dv =>
      have hb : buildRow e = .ok (rowOf e dv) := by unfold buildRow; rw [hd]; rfl
      rw [hb] at h
      injection h with h2
      subst h2
      rfl
  · rintro (h1 | h1) <;> simp [rowAddr, h1]
  · rintro ⟨h1, h2⟩; simp [rowAddr, h1, h2]

/-- Witness for C4: the internal-test REFUEL event shapes with its
address cell overridden by the raw fuel triple. -/
theorem refuel_drain_address_witness :
    buildRow evRefuelW = .ok rowRefuelW ∧
    cellGet rowRefuelW "Adresă" = some (.str "386.93 | 418.52 | 31.59") := by
  have h : buildRow evRefuelW = .ok rowRefuelW := rfl
  refine ⟨h, ?_⟩
  exact ((refuel_drain_address evRefuelW rowRefuelW h).1).trans (by with_unfolding_all decide)

/-- C3 (code bug): a record with a present but non-integer-coercible
`duration_sec` makes `build_rows` raise `ValueError`, losing every
record of the batch, while the malformations the claim lists for the
other fields (missing coordinates, unparsable timestamp, non-numeric
mileage) are indeed locally defaulted. -/
theorem build_rows_duration_valueerror :
    build_rows [evBadDurW, evStopW] =
      .error "ValueError: invalid literal for int() with base 10" ∧
    build_rows [evMalformedW] = .ok [[("Tip eveniment", Val.str "STOP"), ("Start", Val.null),
      ("Sfârșit", Val.null), ("Durată", Val.null), ("Lat", Val.null), ("Lon", Val.null),
      ("Adresă", Val.str ""), ("Kilometraj (pas) [km]", Val.float 0),
      ("Nivel combustibil", Val.null), ("ID șofer", Val.null), ("ID brut", Val.int 7)]] := by
  exact ⟨by with_unfolding_all rfl, by with_unfolding_all rfl⟩

/-- C2 (code bug): on a table mixing a parsable formatted Start with an
unparsable one, the sort raises `TypeError` — the parsable display
string yields an offset-naive key while the fallback `datetime.min` is
offset-aware — instead of sorting the unparsable row first. -/
theorem sort_mixed_start_typeerror :
    sort_and_cumulate dfMixedW =
      .error "TypeError: cannot compare offset-naive and offset-aware datetimes" ∧
    (rowKey (dfMixedW.rows.headD [])).isNaive = true ∧
    rowKey (dfMixedW.rows.getLastD []) = datetimeMinKey := by
  exact ⟨rfl, rfl, rfl⟩

/-- Keys of a shaped row literal are exactly the display columns. -/
theorem rowOf_keys (e : Event) (dur : Val) : (rowOf e dur).map Prod.fst = displayCols := rfl

/-- Every successfully shaped row carries exactly the display columns. -/
theorem buildRow_ok_keys {e : Event} {r : Row} (h : buildRow e = .ok r) :
    r.map Prod.fst = displayCols := by
  cases hd : durCell e with
  | error s =>
    have hb : buildRow e = .error s := by unfold buildRow; rw [hd]; rfl
    rw [hb] at h
    exact Except.noConfusion h
  | ok dv =>
    have hb : buildRow e = .ok (rowOf e dv) := by unfold buildRow; rw [hd]; rfl
    rw [hb] at h
    injection h with h2
    subst h2
    rfl

/-- C9: when `build_rows` returns, it returns one row per input record
in input order, each with exactly the eleven display columns in the
fixed order. -/
theorem build_rows_shape (es : List Event) (rs : List Row) (h : build_rows es = .ok rs) :
    rs.length = es.length ∧
    ∀ i (hi : i < es.length) (hi' : i < rs.length),
      buildRow (es.get ⟨i, hi⟩) = .ok (rs.get ⟨i, hi'⟩) ∧
      (rs.get ⟨i, hi'⟩).map Prod.fst = displayCols := by
  induction es generalizing rs with
  | nil =>
    have hb : build_rows ([] : List Event) = .ok ([] : List Row) := rfl
    rw [hb] at h
    injection h with h2
    subst h2
    exact ⟨rfl, fun i hi _ => absurd hi (Nat.not_lt_zero i)⟩
  | cons e es ih =>
    cases hr : buildRow e with
    | error s =>
      have hb : build_rows (e :: es) = .error s := by unfold build_rows; rw [hr]; rfl
      rw [hb] at h
      exact Except.noConfusion h
    | ok r0 =>
      cases hrs : build_rows es with
      | error s =>
        have hb : build_rows (e :: es) = .error s := by unfold build_rows; rw [hr, hrs]; rfl
        rw [hb] at h
        exact Except.noConfusion h
      | ok rs0 =>
        have hb : build_rows (e :: es) = .ok (r0 :: rs0) := by
          unfold build_rows; rw [hr, hrs]; rfl
        rw [hb] at h
        injection h with h2
        subst h2
        obtain ⟨ihl, ihp⟩ := ih rs0 hrs
        refine ⟨by simp [ihl], ?_⟩
        intro i hi hi'
        cases i with
        | zero => exact ⟨hr, buildRow_ok_keys hr⟩
        | succ n => exact ihp n (Nat.lt_of_succ_lt_succ hi) (Nat.lt_of_succ_lt_succ hi')

/-- Witness for C9: the two internal-test events shape into two rows,
in order, each with the display columns. -/
theorem build_rows_shape_witness :
    build_rows esW = .ok rsW ∧ rsW.length = esW.length ∧
    (rsW.headD []).map Prod.fst = displayCols := by
  have h : build_rows esW = .ok rsW := rfl
  have hlt : 0 < esW.length := by decide
  have hlt' : 0 < rsW.length := by rw [(build_rows_shape esW rsW h).1]; exact hlt
  refine ⟨h, (build_rows_shape esW rsW h).1, ?_⟩
  have h2 := ((build_rows_shape esW rsW h).2 0 hlt hlt').2
  rw [show rsW.get ⟨0, hlt'⟩ = rsW.headD [] from rfl] at h2
  exact h2

/-- The running-sum worker preserves length. -/
theorem cumsum_go_length (xs : List ℚ) : ∀ acc, (cumsum.go acc xs).length = xs.length := by
  induction xs with
  | nil => intro acc; rfl
  | cons x r ih => intro acc; simp [cumsum.go, ih]

/-- `cumsum` preserves length. -/
theorem cumsum_length (xs : List ℚ) : (cumsum xs).length = xs.length :=
  cumsum_go_length xs 0

/-- Element `i` of the running-sum worker is the accumulator plus the
inclusive prefix sum through `i`. -/
theorem cumsum_go_get (xs : List ℚ) : ∀ (acc : ℚ) (i : ℕ) (h : i < (cumsum.go acc xs).length),
    (cumsum.go acc xs).get ⟨i, h⟩ = acc + (xs.take (i + 1)).sum := by
  induction xs with
  | nil => intro acc i h; simp [cumsum.go] at h
  | cons x r ih =>
    intro acc i h
    cases i with
    | zero => simp [cumsum.go]
    | succ n =>
      have h' : n < (cumsum.go (acc + x) r).length := by
        simpa [cumsum.go] using h
      have step : (cumsum.go acc (x :: r)).get ⟨n + 1, h⟩ =
          (cumsum.go (acc + x) r).get ⟨n, h'⟩ := rfl
      rw [step, ih (acc + x) n h']
      simp [List.sum_cons, add_assoc]

/-- `shiftFill0` preserves length. -/
theorem shiftFill0_length (xs : List ℚ) : (shiftFill0 xs).length = xs.length := by
  cases xs with
  | nil => rfl
  | cons x r => simp [shiftFill0]

/-- Dropping the last inclusive running sum leaves the tail of the
exclusive scan. -/
theorem cumsum_go_dropLast (xs : List ℚ) : ∀ acc,
    (cumsum.go acc xs).dropLast = (exclScan acc xs).tail := by
  induction xs with
  | nil => intro acc; rfl
  | cons x r ih =>
    intro acc
    cases r with
    | nil => rfl
    | cons y r' =>
      have hih := ih (acc + x)
      have hcons : cumsum.go (acc + x) (y :: r') =
          (acc + x + y) :: cumsum.go (acc + x + y) r' := rfl
      calc (cumsum.go acc (x :: y :: r')).dropLast
          = ((acc + x) :: cumsum.go (acc + x) (y :: r')).dropLast := rfl
        _ = (acc + x) :: (cumsum.go (acc + x) (y :: r')).dropLast := by
            rw [hcons]; rfl
        _ = (acc + x) :: (exclScan (acc + x) (y :: r')).tail := by rw [hih]
        _ = (exclScan acc (x :: y :: r')).tail := rfl

/-- The cumulative-then-shift pipeline equals the exclusive scan from
zero. -/
theorem shift_cumsum_eq (xs : List ℚ) : shiftFill0 (cumsum xs) = exclScan 0 xs := by
  cases xs with
  | nil => rfl
  | cons x r =>
    have h1 : cumsum (x :: r) = (0 + x) :: cumsum.go (0 + x) r := rfl
    have h2 : shiftFill0 (cumsum (x :: r)) = 0 :: (cumsum (x :: r)).dropLast := by
      rw [h1]; rfl
    rw [h2]
    have h3 : (cumsum (x :: r)).dropLast = (exclScan 0 (x :: r)).tail :=
      cumsum_go_dropLast (x :: r) 0
    rw [h3]
    rfl

/-- Element `i` of the exclusive scan is the accumulator plus the sum
of the elements strictly before `i`. -/
theorem exclScan_get (xs : List ℚ) : ∀ (acc : ℚ) (i : ℕ) (h : i < (exclScan acc xs).length),
    (exclScan acc xs).get ⟨i, h⟩ = acc + (xs.take i).sum := by
  induction xs with
  | nil => intro acc i h; simp [exclScan] at h
  | cons x r ih =>
    intro acc i h
    cases i with
    | zero => simp [exclScan]
    | succ n =>
      have h' : n < (exclScan (acc + x) r).length := by simpa [exclScan] using h
      have step : (exclScan acc (x :: r)).get ⟨n + 1, h⟩ =
          (exclScan (acc + x) r).get ⟨n, h'⟩ := rfl
      rw [step, ih (acc + x) n h']
      simp [List.sum_cons, add_assoc]

/-- The shifted running sum is the exclusive prefix sum: element `i`
equals the sum of the elements strictly before `i`. -/
theorem shift_cumsum_get (xs : List ℚ) (i : ℕ) (h : i < (shiftFill0 (cumsum xs)).length) :
    (shiftFill0 (cumsum xs)).get ⟨i, h⟩ = (xs.take i).sum := by
  have h' : i < (exclScan 0 xs).length := by
    rw [← shift_cumsum_eq]; exact h
  have he := exclScan_get xs 0 i h'
  simp only [List.get_eq_getElem] at he ⊢
  simp only [shift_cumsum_eq]
  rw [he, zero_add]

/-- Assignment places the value under the assigned column. -/
theorem cellGet_setCell_self (r : Row) (c : String) (v : Val) :
    cellGet (setCell r c v) c = some v := by
  induction r with
  | nil => simp [setCell, cellGet]
  | cons kv rest ih =>
    by_cases hk : kv.1 = c
    · simp [setCell, hk, cellGet]
    · simp [setCell, hk, cellGet, ih]

/-- A dropped column is gone from the row. -/
theorem cellGet_dropCell_self (r : Row) (c : String) : cellGet (dropCell r c) c = none := by
  induction r with
  | nil => rfl
  | cons kv rest ih =>
    by_cases hk : kv.1 = c
    · simpa [dropCell, List.filter_cons, hk] using ih
    · simpa [dropCell, List.filter_cons, hk, cellGet] using ih

/-- Dropping one column leaves every other column's cell unchanged. -/
theorem cellGet_dropCell_ne (r : Row) (c c' : String) (hne : c ≠ c') :
    cellGet (dropCell r c') c = cellGet r c := by
  induction r with
  | nil => rfl
  | cons kv rest ih =>
    by_cases hk : kv.1 = c'
    · have h2 : ¬(c' = c) := fun hcc => hne hcc.symm
      have hkc : ¬(kv.1 = c) := by rw [hk]; exact h2
      simp [dropCell, List.filter_cons, hk, cellGet, hkc, h2]
      simpa [dropCell] using ih
    · by_cases hc : kv.1 = c
      · simp [dropCell, List.filter_cons, hk, cellGet, hc, hne]
      · simp [dropCell, List.filter_cons, hk, cellGet, hc] at ih ⊢
        exact ih

/-- Stable insertion grows the list by one. -/
theorem insertSorted_length (r : Row) (l : List Row) :
    (insertSorted r l).length = l.length + 1 := by
  induction l with
  | nil => rfl
  | cons x xs ih => by_cases hle : rowLE r x <;> simp [insertSorted, hle, ih]

/-- The sort is a permutation in length. -/
theorem sortRows_length (l : List Row) : (sortRows l).length = l.length := by
  induction l with
  | nil => rfl
  | cons x xs ih => simp [sortRows, insertSorted_length, ih]

/-- Element `i` of a zipWith, in `List.get` form. -/
theorem zipWith_get (f : Row → ℚ → Row) : ∀ (as : List Row) (bs : List ℚ) (i : ℕ)
    (h : i < (List.zipWith f as bs).length) (ha : i < as.length) (hb : i < bs.length),
    (List.zipWith f as bs).get ⟨i, h⟩ = f (as.get ⟨i, ha⟩) (bs.get ⟨i, hb⟩) := by
  intro as
  induction as with
  | nil => intro bs i h ha hb; simp at ha
  | cons a as ih =>
    intro bs i h ha hb
    cases bs with
    | nil => simp at hb
    | cons b bs =>
      cases i with
      | zero => rfl
      | succ n =>
        exact ih bs n (by simpa using h) (Nat.lt_of_succ_lt_succ ha)
          (Nat.lt_of_succ_lt_succ hb)

/-- Assignment's target column is a member of the resulting column
list. -/
theorem mem_setColName_self (l : List String) (c : String) : c ∈ setColName l c := by
  unfold setColName
  by_cases hc : l.contains c = true
  · rw [if_pos hc]
    exact List.elem_iff.mp hc
  · rw [if_neg hc]
    exact List.mem_append.mpr (Or.inr (by simp))

/-- Membership after a column drop. -/
theorem mem_dropColName (l : List String) (c c' : String) :
    c ∈ dropColName l c' ↔ c ∈ l ∧ c ≠ c' := by
  unfold dropColName
  simp [List.mem_filter]

/-- Structure of a successful non-empty `sort_and_cumulate` run: the
step column was present, the result columns are the input columns with
the cumulative column appended and the step column dropped, and the
result rows are the sorted rows with the shifted running sum assigned
and the step cell dropped. -/
theorem sort_and_cumulate_ok_struct (df df' : DataFrame) (hne : df.rows ≠ [])
    (hcols : df.cols ≠ []) (h : sort_and_cumulate df = .ok df') :
    df.cols.contains stepCol = true ∧
    df'.cols = dropColName (setColName df.cols cumuCol) stepCol ∧
    df'.rows = (List.zipWith (fun r q => setCell r cumuCol (.float q)) (sortRows df.rows)
      (shiftFill0 (cumsum ((sortRows df.rows).map fun r =>
        toNumFill0 (cellGetD r stepCol))))).map (fun r => dropCell r stepCol) := by
  unfold sort_and_cumulate at h
  rw [if_neg (by simp [List.isEmpty_iff, hne, hcols])] at h
  by_cases h1 : (!df.cols.contains "Start") = true
  · rw [if_pos h1] at h
    exact Except.noConfusion h
  · rw [if_neg h1] at h
    by_cases h2 : mixedKeys df.rows = true
    · rw [if_pos h2] at h
      exact Except.noConfusion h
    · rw [if_neg h2] at h
      by_cases h3 : (!df.cols.contains stepCol) = true
      · rw [if_pos h3] at h
        exact Except.noConfusion h
      · rw [if_neg h3] at h
        injection h with h4
        subst h4
        refine ⟨by simpa using h3, rfl, rfl⟩

/-- C1: on every non-empty table accepted by `sort_and_cumulate`, the
output has one row per input row; the cumulative column is present and
the step column is gone; every output row lost its step cell; row `i`'s
cumulative value is the sum of the coerced step values (non-numeric
steps count as 0) of the sorted rows strictly before `i`; the first
row's cumulative value is 0. -/
theorem sort_and_cumulate_cumulative_spec (df df' : DataFrame) (hne : df.rows ≠ [])
    (hcols : df.cols ≠ []) (h : sort_and_cumulate df = .ok df') :
    df'.rows.length = df.rows.length ∧
    cumuCol ∈ df'.cols ∧ stepCol ∉ df'.cols ∧
    (∀ r, r ∈ df'.rows → cellGet r stepCol = none) ∧
    (∀ i (hi : i < df'.rows.length),
      cellGet (df'.rows.get ⟨i, hi⟩) cumuCol =
        some (.float ((((sortRows df.rows).map fun r =>
          toNumFill0 (cellGetD r stepCol)).take i).sum))) ∧
    (∀ h0 : 0 < df'.rows.length, cellGet (df'.rows.get ⟨0, h0⟩) cumuCol =
      some (.float 0)) := by
  obtain ⟨hstep, hcolsEq, hrowsEq⟩ := sort_and_cumulate_ok_struct df df' hne hcols h
  have hsl : (sortRows df.rows).length = df.rows.length := sortRows_length _
  have hstepsLen : ((sortRows df.rows).map fun r =>
      toNumFill0 (cellGetD r stepCol)).length = df.rows.length := by simp [hsl]
  have hcumsLen : (shiftFill0 (cumsum ((sortRows df.rows).map fun r =>
      toNumFill0 (cellGetD r stepCol)))).length = df.rows.length := by
    rw [shiftFill0_length, cumsum_length, hstepsLen]
  have hzipLen : (List.zipWith (fun r q => setCell r cumuCol (.float q)) (sortRows df.rows)
      (shiftFill0 (cumsum ((sortRows df.rows).map fun r =>
        toNumFill0 (cellGetD r stepCol))))).length = df.rows.length := by
    rw [List.length_zipWith, hsl, hcumsLen]
    exact Nat.min_self _
  have hlen : df'.rows.length = df.rows.length := by
    rw [hrowsEq, List.length_map, hzipLen]
  have hmain : ∀ i (hi : i < df'.rows.length),
      cellGet (df'.rows.get ⟨i, hi⟩) cumuCol =
        some (.float ((((sortRows df.rows).map fun r =>
          toNumFill0 (cellGetD r stepCol)).take i).sum)) := by
    intro i hi
    have hidf : i < df.rows.length := by rw [← hlen]; exact hi
    have hizip : i < (List.zipWith (fun r q => setCell r cumuCol (.float q)) (sortRows df.rows)
        (shiftFill0 (cumsum ((sortRows df.rows).map fun r =>
          toNumFill0 (cellGetD r stepCol))))).length := by rw [hzipLen]; exact hidf
    have hisrt : i < (sortRows df.rows).length := by rw [hsl]; exact hidf
    have hicums : i < (shiftFill0 (cumsum ((sortRows df.rows).map fun r =>
        toNumFill0 (cellGetD r stepCol)))).length := by rw [hcumsLen]; exact hidf
    have hget : df'.rows.get ⟨i, hi⟩ =
        dropCell (setCell ((sortRows df.rows).get ⟨i, hisrt⟩) cumuCol
          (.float ((shiftFill0 (cumsum ((sortRows df.rows).map fun r =>
            toNumFill0 (cellGetD r stepCol)))).get ⟨i, hicums⟩))) stepCol := by
      simp only [List.get_eq_getElem]
      simp only [hrowsEq]
      rw [List.getElem_map, List.getElem_zipWith]
    rw [hget, cellGet_dropCell_ne _ _ _ (by decide), cellGet_setCell_self]
    rw [shift_cumsum_get]
  refine ⟨hlen, ?_, ?_, ?_, hmain, ?_⟩
  · rw [hcolsEq]
    exact (mem_dropColName _ _ _).mpr ⟨mem_setColName_self _ _, by decide⟩
  · rw [hcolsEq]
    intro hmm
    exact ((mem_dropColName _ _ _).mp hmm).2 rfl
  · intro r hr
    rw [hrowsEq] at hr
    obtain ⟨r', _, rfl⟩ := List.mem_map.mp hr
    exact cellGet_dropCell_self r' stepCol
  · intro h0
    simpa using hmain 0 h0

/-- C10: an empty frame passes through `sort_and_cumulate` unchanged
(no sort, no column drop, no cumulative column), while every accepted
non-empty frame loses the step column and gains the cumulative column,
so its column set differs from the input's. -/
theorem sort_and_cumulate_empty_frame :
    (∀ df : DataFrame, df.rows = [] → sort_and_cumulate df = .ok df) ∧
    (∀ df df' : DataFrame, df.rows ≠ [] → df.cols ≠ [] → sort_and_cumulate df = .ok df' →
      stepCol ∈ df.cols ∧ stepCol ∉ df'.cols ∧ cumuCol ∈ df'.cols ∧ df'.cols ≠ df.cols) := by
  constructor
  · intro df hdf
    unfold sort_and_cumulate
    rw [if_pos]
    simp [hdf]
  · intro df df' hne hcols h
    obtain ⟨hstep, hcolsEq, _⟩ := sort_and_cumulate_ok_struct df df' hne hcols h
    have hmem : stepCol ∈ df.cols := List.elem_iff.mp hstep
    have hnot : stepCol ∉ df'.cols := by
      rw [hcolsEq]
      intro hmm
      exact ((mem_dropColName _ _ _).mp hmm).2 rfl
    have hcu : cumuCol ∈ df'.cols := by
      rw [hcolsEq]
      exact (mem_dropColName _ _ _).mpr ⟨mem_setColName_self _ _, by decide⟩
    exact ⟨hmem, hnot, hcu, fun he => hnot (he ▸ hmem)⟩

/-- Witness for C1: on the three-row witness table the sorted steps are
[1, 2, 0] (the non-numeric "x" counting as 0), so the cumulative cells
are 0, 1 and 3. -/
theorem sort_and_cumulate_cumulative_spec_witness :
    dfW.rows ≠ [] ∧ sort_and_cumulate dfW = .ok dfW' ∧
    cellGet (dfW'.rows.get ⟨2, by decide⟩) cumuCol = some (.float 3) ∧
    cellGet (dfW'.rows.get ⟨0, by decide⟩) cumuCol = some (.float 0) := by
  have h : sort_and_cumulate dfW = .ok dfW' := rfl
  refine ⟨by decide, h, ?_, ?_⟩
  · have hm := (sort_and_cumulate_cumulative_spec dfW dfW' (by decide) (by decide)
      h).2.2.2.2.1 2 (by decide)
    exact hm.trans (by with_unfolding_all decide)
  · exact (sort_and_cumulate_cumulative_spec dfW dfW' (by decide) (by decide)
      h).2.2.2.2.2 (by decide)

/-- Witness for C10: an empty shaped frame passes through unchanged,
while the non-empty witness table comes back with the step column
dropped and the cumulative column added. -/
theorem sort_and_cumulate_empty_frame_witness :
    sort_and_cumulate ⟨displayCols, []⟩ = .ok ⟨displayCols, []⟩ ∧
    sort_and_cumulate dfW = .ok dfW' ∧
    stepCol ∉ dfW'.cols ∧ cumuCol ∈ dfW'.cols ∧ dfW'.cols ≠ dfW.cols := by
  have h : sort_and_cumulate dfW = .ok dfW' := rfl
  obtain ⟨_, hnot, hcu, hne'⟩ :=
    sort_and_cumulate_empty_frame.2 dfW dfW' (by decide) (by decide) h
  exact ⟨sort_and_cumulate_empty_frame.1 ⟨displayCols, []⟩ rfl, h, hnot, hcu, hne'⟩

open Classical in
/-- C5 (spec-modelled): the matcher returns the empty list when either
coordinate is null; otherwise it returns, in input order, the names of
exactly the zones whose haversine distance from the point is at most
the radius (boundary-inclusive); and the distance from a point to
itself is 0, so a point at a zone's centre matches whenever the radius
is non-negative. -/
theorem geozone_matcher_spec (lat lon : Option ℝ) (zs : List Geozone) :
    ((lat = none ∨ lon = none) → matchZones lat lon zs = []) ∧
    (∀ la lo, lat = some la → lon = some lo →
      matchZones lat lon zs =
        (zs.filter fun z => haversineM la lo z.clat z.clon ≤ z.radius).map Geozone.name) ∧
    (∀ la lo : ℝ, haversineM la lo la lo = 0) := by
  refine ⟨?_, ?_, ?_⟩
  · rintro (rfl | rfl)
    · cases lon <;> rfl
    · cases lat <;> rfl
  · rintro la lo rfl rfl
    show matchZonesAux la lo zs = _
    induction zs with
    | nil => rfl
    | cons z t ih =>
      by_cases hd : haversineM la lo z.clat z.clon ≤ z.radius
      · simp [matchZonesAux, hd, List.filter_cons, ih]
      · simp [matchZonesAux, hd, List.filter_cons, ih]
  · intro la lo
    simp [haversineM, sub_self, Real.sin_zero, Real.sqrt_zero, Real.arcsin_zero]

/-- Witness for C5: a null latitude matches nothing, and the exact
centre of a zone with positive radius matches. -/
theorem geozone_matcher_spec_witness :
    matchZones none (some 0) [⟨"Z", 0, 0, 5⟩] = [] ∧
    matchZones (some 0) (some 0) [⟨"Z", 0, 0, 5⟩] = ["Z"] := by
  constructor
  · exact (geozone_matcher_spec none (some 0) [⟨"Z", 0, 0, 5⟩]).1 (Or.inl rfl)
  · have hc := (geozone_matcher_spec (some 0) (some 0) [⟨"Z", 0, 0, 5⟩]).2.1 0 0 rfl rfl
    have h0 := (geozone_matcher_spec (some 0) (some 0) [⟨"Z", 0, 0, 5⟩]).2.2 0 0
    rw [hc]
    have hle : haversineM 0 0 (Geozone.mk "Z" 0 0 5).clat (Geozone.mk "Z" 0 0 5).clon ≤
        (Geozone.mk "Z" 0 0 5).radius := by
      show haversineM 0 0 0 0 ≤ 5
      rw [h0]
      norm_num
    simp [List.filter_cons, hle]
